import Mathlib

/-!
Verification development for the SharpLearn session-orchestration core.

The TypeScript sources are shallowly embedded: pure helper functions become Lean
functions, stateful React callbacks become explicit state-transition functions,
and asynchronous external calls (speech channel, vision classification, text
generation) become oracle parameters returning `Except`.  JavaScript strings are
modelled as Lean `String`, JavaScript numbers as `ℚ` where fractional values can
occur (focus scores, audio samples) and as `Nat`/`Int` elsewhere, and JavaScript
`Array` as `List`.
-/

namespace SharpLearn

/-! ## JavaScript string primitives

`String.prototype.trim` and `String.prototype.toLowerCase` are modelled on the
character list of the string (ASCII whitespace and ASCII case, which covers all
strings appearing in the repository). -/

/-- Whitespace test for the model of JS `String.prototype.trim`. -/
def wsChar (c : Char) : Bool :=
  c == ' ' || c == '\t' || c == '\n' || c == '\r'

/-- Drop whitespace at the right end of a character list. -/
def trimRightL (l : List Char) : List Char :=
  (l.reverse.dropWhile wsChar).reverse

/-- Drop whitespace at the left end of a character list. -/
def trimLeftL (l : List Char) : List Char :=
  l.dropWhile wsChar

/-- Model of JS `s.trim()`: whitespace removed from both ends. -/
def jsTrim (s : String) : String :=
  ⟨trimLeftL (trimRightL s.data)⟩

/-- Model of JS `s.toLowerCase()` (ASCII case folding). -/
def jsToLower (s : String) : String :=
  ⟨s.data.map Char.toLower⟩

/-! ## Transcription message handler (src/hooks/useSpeechRecognition.ts)

The `onmessage` callback keeps one local accumulator `currentTurnTranscription`.
For every message carrying `inputTranscription` it executes
`currentTurnTranscription += newTextPart` and republishes the accumulator as the
interim transcript; when the message also carries `turnComplete` it commits
`currentTurnTranscription.trim() + ' '` to the full transcript (only if the
trimmed text is non-empty) and resets the accumulator. -/

/-- State carried across `onmessage` invocations: the committed transcript
(`fullTranscript` accumulated through `onTranscriptChunk`) and the current turn
accumulator `currentTurnTranscription` (published as the interim transcript). -/
structure TranscriptState where
  committed : String
  currentTurn : String
deriving DecidableEq

/-- One transcription event: the `inputTranscription.text` payload and the
`turnComplete` flag of the server message. -/
structure TranscriptionMsg where
  text : String
  turnComplete : Bool
deriving DecidableEq

/-- The `onmessage` handler of `useSpeechRecognition` (lines 103-119). -/
def onmessage (st : TranscriptState) (m : TranscriptionMsg) : TranscriptState :=
  let cur := st.currentTurn ++ m.text
  if m.turnComplete then
    { committed := if jsTrim cur ≠ "" then st.committed ++ jsTrim cur ++ " " else st.committed
      currentTurn := "" }
  else
    { st with currentTurn := cur }

/-- Deliver a sequence of transcription events in arrival order. -/
def runMessages (st : TranscriptState) (ms : List TranscriptionMsg) : TranscriptState :=
  ms.foldl onmessage st

/-- Left-to-right concatenation of delta texts onto an accumulator, mirroring
the repeated `+=` of the handler. -/
def concatFrom (acc : String) : List String → String
  | [] => acc
  | t :: ts => concatFrom (acc ++ t) ts

/-- One full turn: the given texts delivered as non-final events followed by one
final event carrying `last` with `turnComplete` set. -/
def deliverTurn (st : TranscriptState) (texts : List String) (last : String) : TranscriptState :=
  runMessages st ((texts.map fun t => TranscriptionMsg.mk t false) ++ [TranscriptionMsg.mk last true])

/-! ## Final transcript computed by endSession (src/App.tsx line 234) -/

/-- The final transcript computed by `endSession`:
`(finalTranscriptChunks + ' ' + lastInterimChunk).trim()`. -/
def endSessionFinalTranscript (committed interim : String) : String :=
  jsTrim (committed ++ " " ++ interim)

/-! ## Session start (src/App.tsx startSession, src/hooks startListening) -/

/-- The UI state enumeration of App.tsx (`AppState`); `SETUP` is the idle/setup
screen. -/
inductive AppState where
  | SETUP
  | ACTIVE
  | SUMMARY
  | LOADING
deriving DecidableEq

/-- Observable outcome of `startListening`: whether the missing-credential error
was raised, whether a connection to the transcription service was attempted, and
whether the hook ended up listening. -/
structure ListenOutcome where
  configError : Bool
  connectAttempted : Bool
  listening : Bool
deriving DecidableEq

/-- Model of `startListening` (useSpeechRecognition.ts lines 58-137): a no-op
when already listening; otherwise the credential check runs first and returns
early — setting the error and attempting no connection — when `process.env.API_KEY`
is absent; with a credential present the client is created and a connection is
attempted.  (Teardown after a failed connection is not modelled; no claim
depends on it.) -/
def startListening (isListening : Bool) (apiKey : Option String) : ListenOutcome :=
  if isListening then
    { configError := false, connectAttempted := false, listening := true }
  else
    match apiKey with
    | none => { configError := true, connectAttempted := false, listening := false }
    | some _ => { configError := false, connectAttempted := true, listening := true }

/-- Observable outcome of `startSession`. -/
structure StartOutcome where
  mediaAcquired : Bool
  appState : AppState
  listen : ListenOutcome
deriving DecidableEq

/-- Model of `startSession` (App.tsx lines 169-191): `getUserMedia` runs first;
on success the stream is stored, the state becomes `ACTIVE`, the session record
and accumulators are reset, and only then is `startListening` invoked (which
performs the credential check).  If media access is denied nothing is acquired
and the state stays `SETUP`. -/
def startSession (mediaAccess : Bool) (isListening : Bool) (apiKey : Option String) :
    StartOutcome :=
  if mediaAccess then
    { mediaAcquired := true
      appState := AppState.ACTIVE
      listen := startListening isListening apiKey }
  else
    { mediaAcquired := false
      appState := AppState.SETUP
      listen := { configError := false, connectAttempted := false, listening := false } }

/-! ## Audio frame encoding (src/hooks/useSpeechRecognition.ts createBlob)

`createBlob` writes `int16[i] = data[i] * 32768` into an `Int16Array`.  The
JavaScript assignment performs ToInt16: truncation toward zero followed by
wrap-around modulo 2^16 into the signed 16-bit range — no rounding and no
clamping.  Samples are modelled as `ℚ` (scaling by the power of two 32768 is
exact in binary floating point for samples in [-1, 1], so the rational model is
exact).  The `Uint8Array` view of the buffer is the little-endian byte sequence,
which is what gets base64-encoded; the model keeps the raw bytes. -/

/-- Truncation toward zero of a rational (the float-to-integer step of the JS
ToInt16 conversion). -/
def jsTrunc (x : ℚ) : Int :=
  if 0 ≤ x then ⌊x⌋ else ⌈x⌉

/-- Wrap an integer into the signed 16-bit range modulo 2^16 (the wrap step of
the JS ToInt16 conversion). -/
def wrap16 (t : Int) : Int :=
  if t % 65536 < 32768 then t % 65536 else t % 65536 - 65536

/-- The JS `Int16Array` element assignment: ToInt16 = truncate then wrap. -/
def jsToInt16 (x : ℚ) : Int :=
  wrap16 (jsTrunc x)

/-- Quantization performed by `createBlob`: `int16[i] = data[i] * 32768`. -/
def quantizeSample (x : ℚ) : Int :=
  jsToInt16 (x * 32768)

/-- Quantizer as the claim words it — `round(float * 32768)` clamped to the
int16 range.  Declared only to compare the claim's wording with the code. -/
def specClaimedQuantize (x : ℚ) : Int :=
  max (-32768) (min 32767 (round (x * 32768)))

/-- Little-endian byte pair of a signed 16-bit value, as read from the
`Uint8Array` view of the `Int16Array` buffer. -/
def int16Bytes (v : Int) : List Nat :=
  [(v % 65536).toNat % 256, (v % 65536).toNat / 256]

/-- The value returned by `createBlob`: raw bytes (the payload that gets
base64-encoded) plus the MIME tag. -/
structure Blob where
  data : List Nat
  mimeType : String
deriving DecidableEq

/-- Model of `createBlob` (useSpeechRecognition.ts lines 13-23). -/
def createBlob (data : List ℚ) : Blob :=
  { data := (data.map fun x => int16Bytes (quantizeSample x)).flatten
    mimeType := "audio/pcm;rate=16000" }

/-- Decode a little-endian byte stream back to signed 16-bit values. -/
def decodeInt16 : List Nat → List Int
  | lo :: hi :: rest =>
      (if hi * 256 + lo < 32768 then ((hi * 256 + lo : Nat) : Int)
       else ((hi * 256 + lo : Nat) : Int) - 65536) :: decodeInt16 rest
  | _ => []

/-! ## Vision sampler streak logic (FocusTracker component, analyzeFrame)

`analyzeFrame` awaits `geminiService.analyzeFocus`; on success it appends a
sample to the focus history and runs the streak logic (lines 50-64); on failure
it reports the error via `onApiError`, marks the error status and sets the
displayed score to 0 (lines 66-71).  The classification outcome for one tick is
an `Except` input to the step function. -/

/-- The `status` state of the FocusTracker after a tick. -/
inductive TrackerStatus where
  | idle
  | analyzing
  | error
deriving DecidableEq

/-- Mutable state of the FocusTracker: `lowFocusCounter` and `teacherAlertSent`
refs, the focus history accumulated through `onFocusUpdate` (timestamped
scores), the displayed `focusScore`, and the `status` flag. -/
structure TrackerState where
  lowFocusCounter : Nat
  teacherAlertSent : Bool
  focusHistory : List (Nat × ℚ)
  focusScore : ℚ
  status : TrackerStatus
deriving DecidableEq

/-- Externally observable callbacks fired by one `analyzeFrame` tick:
`onLowFocus` (the user-facing "low focus" notification),
`sendFocusAlertToTeacher` (the external teacher notification), and `onApiError`. -/
structure FrameEvents where
  lowFocusFired : Bool
  teacherAlertFired : Bool
  errorReported : Bool
deriving DecidableEq

/-- Initial FocusTracker state: counter 0, alert not sent, empty history,
displayed score 100, idle. -/
def initTracker : TrackerState :=
  { lowFocusCounter := 0
    teacherAlertSent := false
    focusHistory := []
    focusScore := 100
    status := TrackerStatus.idle }

/-- Model of one `analyzeFrame` tick (FocusTracker lines 24-72), applied to the
classification result `res` captured at timestamp `ts`. -/
def analyzeFrame (st : TrackerState) (ts : Nat) (res : Except String ℚ) :
    TrackerState × FrameEvents :=
  match res with
  | Except.ok score =>
      let st1 : TrackerState :=
        { st with status := TrackerStatus.idle
                  focusScore := score
                  focusHistory := st.focusHistory ++ [(ts, score)] }
      if score < 60 then
        let c := st.lowFocusCounter + 1
        let teacherFired := score == 0 && !st.teacherAlertSent
        ({ st1 with lowFocusCounter := c
                    teacherAlertSent := if teacherFired then true else st.teacherAlertSent },
          { lowFocusFired := c == 1
            teacherAlertFired := teacherFired
            errorReported := false })
      else
        ({ st1 with lowFocusCounter := 0, teacherAlertSent := false },
          { lowFocusFired := false, teacherAlertFired := false, errorReported := false })
  | Except.error _ =>
      ({ st with status := TrackerStatus.error, focusScore := 0 },
        { lowFocusFired := false, teacherAlertFired := false, errorReported := true })

/-- Run a sequence of ticks, collecting the per-tick events in order. -/
def runFrames (st : TrackerState) :
    List (Nat × Except String ℚ) → TrackerState × List FrameEvents
  | [] => (st, [])
  | f :: rest =>
      ((runFrames (analyzeFrame st f.1 f.2).1 rest).1,
        (analyzeFrame st f.1 f.2).2 :: (runFrames (analyzeFrame st f.1 f.2).1 rest).2)

/-- Number of teacher notifications fired over a run. -/
def countTeacherAlerts (evs : List FrameEvents) : Nat :=
  evs.countP FrameEvents.teacherAlertFired

/-! ## Session records and the endSession finalization pipeline (src/App.tsx)

`endSession` (lines 217-268) tears down the devices, snapshots the session
state from `sessionStateRef`, computes the final transcript, and runs the
sequential finalization pipeline inside one `try`: optional class-name
generation and subject re-identification for Quick Record sessions, then notes
generation, then summary generation.  `setSessionData` runs only after all
awaits succeed; any rejection lands in `catch`, which leaves `sessionData`
untouched and returns the UI to `SETUP`. -/

/-- The `Session` record of types.ts.  Fields default to their zero values to
mirror the `Partial<Session>` usage of App.tsx. -/
structure Session where
  id : String := ""
  className : String := ""
  subject : String := ""
  startTime : Nat := 0
  endTime : Nat := 0
  notes : String := ""
  summary : String := ""
  focusHistory : List (Nat × ℚ) := []
  lowFocusTimestamps : List Nat := []
  fullTranscript : String := ""
deriving DecidableEq

/-- Snapshot of the per-session mutable state mirrored into
`sessionStateRef` (App.tsx lines 46-62), read by `endSession`. -/
structure SessionRefState where
  fullTranscript : String
  interimTranscript : String
  subject : String
  focusHistory : List (Nat × ℚ)
  lowFocusTimestamps : List Nat
deriving DecidableEq

/-- The generative-text calls `endSession` awaits, as oracles: each call maps
its text input to a result or a rejection. -/
structure GenOracles where
  generateClassNameFromTranscript : String → Except String String
  identifySubject : String → Except String String
  structureNotes : String → Except String String
  generateFinalSummary : String → String → Except String String

/-- The `try` block of `endSession` (App.tsx lines 245-262) as a sequential
`Except` computation over the oracle results: Quick-Record class naming and
subject re-identification first, then notes, then summary, producing the fully
populated session only when every step succeeds. -/
def finalizePipeline (g : GenOracles) (sd : Session) (ref : SessionRefState) (now : Nat) :
    Except String Session :=
  let finalTranscript := endSessionFinalTranscript ref.fullTranscript ref.interimTranscript
  let base : Session :=
    { sd with endTime := now
              focusHistory := ref.focusHistory
              lowFocusTimestamps := ref.lowFocusTimestamps
              fullTranscript := finalTranscript
              subject := if ref.subject = "" then "Not detected" else ref.subject }
  let step1 : Except String Session :=
    if sd.className = "Quick Record" ∧ 50 < (jsTrim finalTranscript).length then
      match g.generateClassNameFromTranscript finalTranscript with
      | Except.error e => Except.error e
      | Except.ok generatedClassName =>
        let s1 := { base with className := generatedClassName }
        if ref.subject = "" ∨ ref.subject = "Unknown" ∨ ref.subject = "Not detected" then
          match g.identifySubject finalTranscript with
          | Except.error e => Except.error e
          | Except.ok subj => Except.ok { s1 with subject := subj }
        else
          Except.ok s1
    else
      Except.ok base
  match step1 with
  | Except.error e => Except.error e
  | Except.ok withName =>
    match g.structureNotes finalTranscript with
    | Except.error e => Except.error e
    | Except.ok finalNotes =>
      match g.generateFinalSummary finalTranscript withName.subject with
      | Except.error e => Except.error e
      | Except.ok finalSummary =>
        Except.ok { withName with notes := finalNotes, summary := finalSummary }

/-- Model of `endSession` after teardown: on pipeline success the populated
session is stored and the state becomes `SUMMARY`; on any failure the stored
session data is left untouched and the state returns to `SETUP`. -/
def endSession (g : GenOracles) (sd : Session) (ref : SessionRefState) (now : Nat) :
    AppState × Session :=
  match finalizePipeline g sd ref now with
  | Except.ok s => (AppState.SUMMARY, s)
  | Except.error _ => (AppState.SETUP, sd)

/-- Oracle set whose summary generation always fails while every other call
succeeds; used to witness the atomicity theorem. -/
def gSummaryFails : GenOracles :=
  { generateClassNameFromTranscript := fun _ => Except.ok "Generated Class"
    identifySubject := fun _ => Except.ok "Mathematics"
    structureNotes := fun _ => Except.ok "structured notes"
    generateFinalSummary := fun _ _ => Except.error "summary failure" }

/-- A concrete Quick Record session for the atomicity witness. -/
def sdQuick : Session :=
  { id := "1", className := "Quick Record", startTime := 3 }

/-- A concrete session-state snapshot for the atomicity witness. -/
def refQuick : SessionRefState :=
  { fullTranscript := "lecture text "
    interimTranscript := "tail"
    subject := ""
    focusHistory := []
    lowFocusTimestamps := [] }

/-! ## Class library (src/App.tsx handleAddClass, handleDeleteClass,
handleSaveSession) -/

/-- The `RegisteredClass` record of types.ts. -/
structure RegisteredClass where
  id : String
  name : String
  sessions : List Session
deriving DecidableEq

/-- Model of `handleAddClass` (App.tsx lines 283-297): a blank name is
rejected; otherwise a class with the trimmed name and no sessions is appended.
`newId` stands for the generated `Date.now().toString()`. -/
def handleAddClass (classes : List RegisteredClass) (newClassName : String) (newId : String) :
    List RegisteredClass :=
  if jsTrim newClassName = "" then classes
  else classes ++ [{ id := newId, name := jsTrim newClassName, sessions := [] }]

/-- Model of `handleDeleteClass` (App.tsx lines 299-307). -/
def handleDeleteClass (classes : List RegisteredClass) (id : String) : List RegisteredClass :=
  classes.filter fun c => c.id != id

/-- Model of `handleSaveSession` (App.tsx lines 309-344): a missing class name
aborts the save (`none`); otherwise the first registered class whose name
matches case-insensitively receives the session (with its `className` rewritten
to the class's stored name), and if none matches a new class named after the
session is created holding it. -/
def handleSaveSession (classes : List RegisteredClass) (sessionToSave : Session)
    (newId : String) : Option (List RegisteredClass) :=
  if sessionToSave.className = "" then none
  else
    match classes.find? (fun c => jsToLower c.name == jsToLower sessionToSave.className) with
    | some targetClass =>
        some (classes.map fun cls =>
          if cls.id = targetClass.id then
            { cls with sessions := cls.sessions ++ [{ sessionToSave with className := cls.name }] }
          else cls)
    | none =>
        some (classes ++
          [{ id := newId
             name := sessionToSave.className
             sessions := [{ sessionToSave with className := sessionToSave.className }] }])

/-- The class-library invariant: every stored session's `className` equals the
name of the class holding it. -/
def ClassInv (classes : List RegisteredClass) : Prop :=
  ∀ c ∈ classes, ∀ s ∈ c.sessions, s.className = c.name

/-- A concrete registered class for the merge-on-save witness. -/
def mathClass : RegisteredClass :=
  { id := "1", name := "Math", sessions := [] }

/-- A concrete finalized session for the merge-on-save witness. -/
def historySession : Session :=
  { id := "42", className := "History" }

/-! ## Auxiliary list lemmas for the trim model -/

theorem trimRightL_append_of_ne (l₁ l₂ : List Char) (h : trimRightL l₂ ≠ []) :
    trimRightL (l₁ ++ l₂) = l₁ ++ trimRightL l₂ := by
  unfold trimRightL at h ⊢
  have h₂ : l₂.reverse.dropWhile wsChar ≠ [] := by
    intro hnil
    exact h (by rw [hnil]; rfl)
  rw [List.reverse_append, List.dropWhile_append,
    if_neg (by simpa [List.isEmpty_iff] using h₂), List.reverse_append,
    List.reverse_reverse]

theorem trimLeftL_suffix (l : List Char) : trimLeftL l <:+ l :=
  List.dropWhile_suffix wsChar

/-! ## Theorems for the claims on transcription and the final transcript -/

theorem runMessages_delta (texts : List String) :
    ∀ st : TranscriptState,
      runMessages st (texts.map fun t => TranscriptionMsg.mk t false)
        = ⟨st.committed, concatFrom st.currentTurn texts⟩ := by
  induction texts with
  | nil => intro st; rfl
  | cons t ts ih =>
    intro st
    show runMessages (onmessage st ⟨t, false⟩) (ts.map fun t => TranscriptionMsg.mk t false) = _
    rw [ih]
    rfl

/-- C1 counterexample: the handler appends each event's text
(`currentTurnTranscription += newTextPart`), so delivering the cumulative
interim texts "a", "a b", "a b c" followed by turn-complete commits the
concatenation "aa ba b c " — not the single replacement "a b c " the claim
predicts. -/
theorem interim_replacement_counterexample :
    (runMessages ⟨"", ""⟩ [⟨"a", false⟩, ⟨"a b", false⟩, ⟨"a b c", true⟩]).committed
        = "aa ba b c " ∧
      (runMessages ⟨"", ""⟩ [⟨"a", false⟩, ⟨"a b", false⟩, ⟨"a b c", true⟩]).committed
        ≠ "a b c " := by
  constructor
  · rfl
  · decide

/-- C1 (amended): `InterimTranscript` events carry deltas and the handler
appends each event's text to the current turn accumulator; the committed
transcript is unchanged by non-final events and, when the turn completes, gains
exactly the trimmed concatenation of all delta texts plus one trailing space,
exactly once, after which the accumulator is reset.  In particular the delta
events "a", " b", " c" followed by turn-complete add exactly "a b c " once. -/
theorem interim_delta_append :
    (∀ (st : TranscriptState) (texts : List String) (last : String),
        deliverTurn st texts last =
          ⟨if jsTrim (concatFrom st.currentTurn texts ++ last) ≠ "" then
              st.committed ++ jsTrim (concatFrom st.currentTurn texts ++ last) ++ " "
            else st.committed, ""⟩) ∧
      deliverTurn ⟨"", ""⟩ ["a", " b"] " c" = ⟨"a b c ", ""⟩ := by
  constructor
  · intro st texts last
    unfold deliverTurn
    unfold runMessages
    rw [List.foldl_append]
    have h := runMessages_delta texts st
    unfold runMessages at h
    rw [h]
    rfl
  · rfl

/-- C2 counterexample: `endSession` computes
`(committed + ' ' + interim).trim()`, which differs from "the committed
transcript with the trimmed interim text appended": with committed = "hello "
and interim = "world" the code yields "hello  world" (double space, from the
inserted separator), not "hello world". -/
theorem final_transcript_counterexample :
    endSessionFinalTranscript "hello " "world" = "hello  world" ∧
      endSessionFinalTranscript "hello " "world" ≠ "hello " ++ jsTrim "world" := by
  constructor
  · rfl
  · decide

/-- C2 (amended): the final transcript is the whole concatenation
`committed ++ " " ++ interim` trimmed at both ends; whenever the interim buffer
contains any non-whitespace text, its trimmed form survives as a suffix of the
final transcript, so the in-flight partial turn is not lost. -/
theorem final_transcript_preserves_interim (committed interim : String)
    (h : jsTrim interim ≠ "") :
    (jsTrim interim).data <:+ (endSessionFinalTranscript committed interim).data := by
  have hdata : (endSessionFinalTranscript committed interim).data
      = trimLeftL (trimRightL ((committed.data ++ [' ']) ++ interim.data)) := rfl
  have hI : trimRightL interim.data ≠ [] := by
    intro hnil
    apply h
    show (⟨trimLeftL (trimRightL interim.data)⟩ : String) = ""
    rw [hnil]
    rfl
  rw [hdata, trimRightL_append_of_ne _ _ hI, List.append_assoc]
  show (jsTrim interim).data <:+ trimLeftL (committed.data ++ (' ' :: trimRightL interim.data))
  unfold trimLeftL
  rw [List.dropWhile_append]
  split
  · rw [List.dropWhile_cons_of_pos (by rfl)]
    exact List.suffix_refl _
  · calc (jsTrim interim).data <:+ trimRightL interim.data := trimLeftL_suffix _
      _ <:+ ' ' :: trimRightL interim.data := List.suffix_cons _ _
      _ <:+ committed.data.dropWhile wsChar ++ (' ' :: trimRightL interim.data) :=
        List.suffix_append _ _

/-- Witness for C2's amended theorem at a concrete session state. -/
theorem final_transcript_preserves_interim_witness :
    (jsTrim "world").data <:+ (endSessionFinalTranscript "hello " "world").data :=
  final_transcript_preserves_interim "hello " "world" (by decide)

/-- C3 counterexample: with media access granted and no credential configured,
`startSession` still acquires the media device — `getUserMedia` runs before the
credential check that lives in `startListening` — refuting "no media device is
ever acquired". -/
theorem credential_gate_counterexample :
    (startSession true false none).listen.configError = true ∧
      (startSession true false none).mediaAcquired = true := by
  decide

/-- C3 (amended): with no credential configured, `startListening` fails fast
with the configuration error before any network action (no connection is ever
attempted), but only after `startSession` has already acquired the camera and
microphone; conversely a connection is attempted exactly when a credential is
present. -/
theorem credential_gate (apiKey : Option String) :
    (startSession true false apiKey).listen.connectAttempted = apiKey.isSome ∧
      (startSession true false apiKey).listen.configError = apiKey.isNone ∧
      (startSession true false apiKey).mediaAcquired = true := by
  cases apiKey <;> simp [startSession, startListening]

/-! ## Theorems for the claim on audio encoding -/

theorem wrap16_eq_self (t : Int) (h1 : -32768 ≤ t) (h2 : t < 32768) : wrap16 t = t := by
  unfold wrap16
  split <;> omega

theorem decodeInt16_int16Bytes (v : Int) (bs : List Nat)
    (h1 : -32768 ≤ v) (h2 : v < 32768) :
    decodeInt16 (int16Bytes v ++ bs) = v :: decodeInt16 bs := by
  unfold int16Bytes
  simp only [List.cons_append, List.nil_append, decodeInt16]
  congr 1
  split <;> omega

theorem quantizeSample_range (x : ℚ) :
    -32768 ≤ quantizeSample x ∧ quantizeSample x < 32768 := by
  unfold quantizeSample jsToInt16 wrap16
  have h1 : 0 ≤ jsTrunc (x * 32768) % 65536 :=
    Int.emod_nonneg _ (by norm_num)
  have h2 : jsTrunc (x * 32768) % 65536 < 65536 :=
    Int.emod_lt_of_pos _ (by norm_num)
  split <;> omega

theorem jsTrunc_range (y : ℚ) (h1 : -32768 ≤ y) (h2 : y < 32768) :
    -32768 ≤ jsTrunc y ∧ jsTrunc y < 32768 := by
  unfold jsTrunc
  split
  · constructor
    · have : (0 : ℤ) ≤ ⌊y⌋ := Int.floor_nonneg.2 (by assumption)
      omega
    · exact Int.floor_lt.2 (by exact_mod_cast h2)
  · constructor
    · have hy : ((-32768 : ℤ) : ℚ) ≤ (⌈y⌉ : ℚ) := by
        calc ((-32768 : ℤ) : ℚ) = (-32768 : ℚ) := by norm_num
          _ ≤ y := h1
          _ ≤ (⌈y⌉ : ℚ) := Int.le_ceil y
      exact_mod_cast hy
    · have hle : ⌈y⌉ ≤ (0 : ℤ) := by
        apply Int.ceil_le.2
        push_cast
        linarith [not_le.1 (by assumption : ¬0 ≤ y)]
      omega

theorem jsTrunc_close (y : ℚ) : |(jsTrunc y : ℚ) - y| < 1 := by
  unfold jsTrunc
  split
  · exact abs_lt.2 ⟨by linarith [Int.lt_floor_add_one y], by linarith [Int.floor_le y]⟩
  · exact abs_lt.2 ⟨by linarith [Int.le_ceil y], by linarith [Int.ceil_lt_add_one y]⟩

/-- C4 counterexample: the code truncates and wraps instead of rounding and
clamping.  At the sample +1.0 the product is 32768, which ToInt16 wraps to
-32768, so the emitted little-endian bytes are [0, 128]; the claim's quantizer
`round(float * 32768)` clamped to int16 gives 32767, bytes [255, 127].  The
decoded value -32768 is 65536 quantization steps away from the claimed 32767,
violating the claimed round-trip bound as well. -/
theorem encoding_counterexample :
    quantizeSample 1 = -32768 ∧ specClaimedQuantize 1 = 32767 ∧
      quantizeSample 1 ≠ specClaimedQuantize 1 ∧
      (createBlob [1]).data = [0, 128] ∧ (createBlob [1]).data ≠ [255, 127] := by
  have htr : jsTrunc ((1 : ℚ) * 32768) = 32768 := by
    unfold jsTrunc
    norm_num
  have hq : quantizeSample 1 = -32768 := by
    unfold quantizeSample jsToInt16
    rw [htr]
    decide
  have hs : specClaimedQuantize 1 = 32767 := by
    have hr : round ((1 : ℚ) * 32768) = 32768 := by
      rw [round_eq]
      norm_num
    unfold specClaimedQuantize
    rw [hr]
    decide
  have hb : (createBlob [1]).data = [0, 128] := by
    have hbytes : int16Bytes (-32768) = [0, 128] := by decide
    simp [createBlob, hq, hbytes]
  refine ⟨hq, hs, ?_, hb, ?_⟩
  · rw [hq, hs]
    decide
  · rw [hb]
    decide

/-- C4 (amended): `createBlob` emits exactly 2N little-endian bytes for N
samples tagged `audio/pcm;rate=16000`, and each sample is quantized by
truncation toward zero of `sample * 32768` followed by wrap-around modulo 2^16
(no rounding, no clamping).  Decoding the bytes recovers exactly the quantized
values, and for samples in [-1, 1) no wrap occurs and the decoded value is
within one quantization step of the exact product; a sample at +1.0 instead
wraps to -32768 (see the counterexample). -/
theorem createBlob_pcm_encoding :
    (∀ data : List ℚ, (createBlob data).data.length = 2 * data.length) ∧
      (∀ data : List ℚ, (createBlob data).mimeType = "audio/pcm;rate=16000") ∧
      (∀ data : List ℚ, decodeInt16 (createBlob data).data = data.map quantizeSample) ∧
      (∀ x : ℚ, -1 ≤ x → x < 1 →
        quantizeSample x = jsTrunc (x * 32768) ∧
          |(quantizeSample x : ℚ) - x * 32768| < 1) := by
  refine ⟨?_, fun _ => rfl, ?_, ?_⟩
  · intro data
    unfold createBlob
    induction data with
    | nil => rfl
    | cons x xs ih =>
      show (int16Bytes (quantizeSample x)
          ++ (xs.map fun y => int16Bytes (quantizeSample y)).flatten).length
        = 2 * (x :: xs).length
      rw [List.length_append]
      have h2 : (int16Bytes (quantizeSample x)).length = 2 := rfl
      have ih2 : ((xs.map fun y => int16Bytes (quantizeSample y)).flatten).length
          = 2 * xs.length := ih
      simp only [List.length_cons]
      omega
  · intro data
    unfold createBlob
    induction data with
    | nil => rfl
    | cons x xs ih =>
      show decodeInt16 (int16Bytes (quantizeSample x)
          ++ (xs.map fun y => int16Bytes (quantizeSample y)).flatten)
        = quantizeSample x :: xs.map quantizeSample
      have ih2 : decodeInt16 ((xs.map fun y => int16Bytes (quantizeSample y)).flatten)
          = xs.map quantizeSample := ih
      rw [decodeInt16_int16Bytes _ _ (quantizeSample_range x).1 (quantizeSample_range x).2, ih2]
  · intro x hlo hhi
    have hy1 : -32768 ≤ x * 32768 := by linarith
    have hy2 : x * 32768 < 32768 := by linarith
    have hrange := jsTrunc_range (x * 32768) hy1 hy2
    have heq : quantizeSample x = jsTrunc (x * 32768) := by
      unfold quantizeSample jsToInt16
      exact wrap16_eq_self _ hrange.1 hrange.2
    refine ⟨heq, ?_⟩
    rw [heq]
    exact jsTrunc_close (x * 32768)

/-- Witness for C4's amended theorem at the concrete sample 1/2 (quantized to
16384, within one step of the exact product). -/
theorem createBlob_pcm_encoding_witness :
    quantizeSample (1 / 2) = jsTrunc ((1 / 2 : ℚ) * 32768) ∧
      |(quantizeSample (1 / 2) : ℚ) - (1 / 2 : ℚ) * 32768| < 1 :=
  createBlob_pcm_encoding.2.2.2 (1 / 2) (by norm_num) (by norm_num)

/-! ## Theorems for the claims on the streak logic -/

/-- C5: a score strictly below 60 increments the consecutive-low-focus streak
and the "low focus" notification fires exactly when the streak reaches 1
(edge-triggered: iff the counter was 0 before the sample); a score of 60 or
more resets the streak and never fires.  The score sequence
[80, 40, 30, 70, 20] fires exactly twice, at indices 1 and 4. -/
theorem lowFocus_edge_trigger :
    (∀ (st : TrackerState) (ts : Nat) (s : ℚ), s < 60 →
        (analyzeFrame st ts (Except.ok s)).1.lowFocusCounter = st.lowFocusCounter + 1 ∧
          ((analyzeFrame st ts (Except.ok s)).2.lowFocusFired = true ↔
            st.lowFocusCounter = 0)) ∧
      (∀ (st : TrackerState) (ts : Nat) (s : ℚ), 60 ≤ s →
        (analyzeFrame st ts (Except.ok s)).1.lowFocusCounter = 0 ∧
          (analyzeFrame st ts (Except.ok s)).2.lowFocusFired = false) ∧
      ((runFrames initTracker
            [(0, Except.ok 80), (1, Except.ok 40), (2, Except.ok 30),
              (3, Except.ok 70), (4, Except.ok 20)]).2.map FrameEvents.lowFocusFired
        = [false, true, false, false, true]) := by
  refine ⟨?_, ?_, by decide⟩
  · intro st ts s h
    refine ⟨by simp [analyzeFrame, h], ?_⟩
    simp only [analyzeFrame, if_pos h, beq_iff_eq]
    omega
  · intro st ts s h
    constructor <;> simp [analyzeFrame, not_lt.2 h]

/-- Witness for C5's general clauses at a concrete low sample. -/
theorem lowFocus_edge_trigger_witness :
    (analyzeFrame initTracker 0 (Except.ok 40)).1.lowFocusCounter
        = initTracker.lowFocusCounter + 1 ∧
      ((analyzeFrame initTracker 0 (Except.ok 40)).2.lowFocusFired = true ↔
        initTracker.lowFocusCounter = 0) :=
  lowFocus_edge_trigger.1 initTracker 0 40 (by norm_num)

theorem teacher_once_per_low_streak (frames : List (Nat × Except String ℚ)) :
    ∀ st : TrackerState, (∀ f ∈ frames, ∃ s, f.2 = Except.ok s ∧ s < 60) →
      countTeacherAlerts (runFrames st frames).2
        ≤ if st.teacherAlertSent then 0 else 1 := by
  induction frames with
  | nil =>
    intro st _
    show 0 ≤ _
    exact Nat.zero_le _
  | cons f rest ih =>
    intro st h
    obtain ⟨s, hok, hlt⟩ := h f (List.mem_cons_self f rest)
    have hrest : ∀ g ∈ rest, ∃ s, g.2 = Except.ok s ∧ s < 60 :=
      fun g hg => h g (List.mem_cons_of_mem f hg)
    have hcount : countTeacherAlerts (runFrames st (f :: rest)).2
        = countTeacherAlerts (runFrames (analyzeFrame st f.1 f.2).1 rest).2
          + if (analyzeFrame st f.1 f.2).2.teacherAlertFired then 1 else 0 :=
      List.countP_cons _ _ _
    have htail := ih (analyzeFrame st f.1 f.2).1 hrest
    by_cases hsent : st.teacherAlertSent
    · have hf : (analyzeFrame st f.1 f.2).2.teacherAlertFired = false := by
        rw [hok]
        simp [analyzeFrame, hlt, hsent]
      have hs' : (analyzeFrame st f.1 f.2).1.teacherAlertSent = true := by
        rw [hok]
        simp [analyzeFrame, hlt, hsent]
      rw [hs', if_pos rfl] at htail
      rw [hcount, hf, if_neg Bool.false_ne_true, Nat.add_zero, if_pos hsent]
      exact htail
    · have hsF : st.teacherAlertSent = false := by
        simpa using hsent
      by_cases hz : s = 0
      · have hf : (analyzeFrame st f.1 f.2).2.teacherAlertFired = true := by
          rw [hok]
          simp [analyzeFrame, hlt, hsF, hz]
        have hs' : (analyzeFrame st f.1 f.2).1.teacherAlertSent = true := by
          rw [hok]
          simp [analyzeFrame, hlt, hsF, hz]
        rw [hs', if_pos rfl] at htail
        rw [hcount, hf, if_pos rfl, if_neg hsent]
        omega
      · have hf : (analyzeFrame st f.1 f.2).2.teacherAlertFired = false := by
          rw [hok]
          simp [analyzeFrame, hlt, hsF, hz]
        have hs' : (analyzeFrame st f.1 f.2).1.teacherAlertSent = st.teacherAlertSent := by
          rw [hok]
          simp [analyzeFrame, hlt, hz]
        rw [hs', hsF, if_neg Bool.false_ne_true] at htail
        rw [hcount, hf, if_neg Bool.false_ne_true, Nat.add_zero, if_neg hsent]
        exact htail

/-- C6: the teacher notification fires on a sample iff the score is exactly 0
and the trigger is armed; firing disarms it, any score of 60 or more re-arms
it, and a non-zero low score leaves it unchanged — hence within any run of
consecutive below-60 samples the external notification fires at most once.
The score sequence [0, 0, 0, 80, 0] fires exactly at indices 0 and 4. -/
theorem teacher_alert_single_fire :
    (∀ (st : TrackerState) (ts : Nat) (s : ℚ), s < 60 →
        ((analyzeFrame st ts (Except.ok s)).2.teacherAlertFired = true ↔
            s = 0 ∧ st.teacherAlertSent = false) ∧
          (analyzeFrame st ts (Except.ok s)).1.teacherAlertSent
            = (st.teacherAlertSent || (s == 0))) ∧
      (∀ (st : TrackerState) (ts : Nat) (s : ℚ), 60 ≤ s →
        (analyzeFrame st ts (Except.ok s)).1.teacherAlertSent = false ∧
          (analyzeFrame st ts (Except.ok s)).2.teacherAlertFired = false) ∧
      (∀ (st : TrackerState) (frames : List (Nat × Except String ℚ)),
        (∀ f ∈ frames, ∃ s, f.2 = Except.ok s ∧ s < 60) →
        countTeacherAlerts (runFrames st frames).2
          ≤ if st.teacherAlertSent then 0 else 1) ∧
      ((runFrames initTracker
            [(0, Except.ok 0), (1, Except.ok 0), (2, Except.ok 0),
              (3, Except.ok 80), (4, Except.ok 0)]).2.map FrameEvents.teacherAlertFired
        = [true, false, false, false, true]) := by
  refine ⟨?_, ?_, fun st frames h => teacher_once_per_low_streak frames st h, by decide⟩
  · intro st ts s h
    constructor
    · simp only [analyzeFrame, if_pos h]
      constructor
      · intro hb
        rcases Bool.and_eq_true_iff.1 hb with ⟨hb1, hb2⟩
        exact ⟨eq_of_beq hb1, by simpa using hb2⟩
      · rintro ⟨hz, hsent⟩
        simp [hz, hsent]
    · by_cases hsent : st.teacherAlertSent
      · simp [analyzeFrame, h, hsent]
      · by_cases hz : s = 0
        · simp [analyzeFrame, h, hsent, hz]
        · simp [analyzeFrame, h, hsent, hz]
  · intro st ts s h
    constructor <;> simp [analyzeFrame, not_lt.2 h]

/-- Witness for C6's general clauses at a concrete zero-score sample. -/
theorem teacher_alert_single_fire_witness :
    ((analyzeFrame initTracker 0 (Except.ok 0)).2.teacherAlertFired = true ↔
        (0 : ℚ) = 0 ∧ initTracker.teacherAlertSent = false) ∧
      (analyzeFrame initTracker 0 (Except.ok 0)).1.teacherAlertSent
        = (initTracker.teacherAlertSent || ((0 : ℚ) == 0)) :=
  teacher_alert_single_fire.1 initTracker 0 0 (by norm_num)

/-- C7 counterexample: a classification failure is not processed by the
streak-counting logic like a real 0-score sample.  From the initial state a
failing tick leaves the streak counter at 0, fires no low-focus notification
and appends nothing to the focus history (it only reports the error), whereas a
real 0-score sample increments the counter to 1, fires the notification and is
appended to the history. -/
theorem classification_failure_counterexample :
    (analyzeFrame initTracker 0 (Except.error "parse failure")).2.errorReported = true ∧
      (analyzeFrame initTracker 0 (Except.error "parse failure")).1.lowFocusCounter = 0 ∧
      (analyzeFrame initTracker 0 (Except.error "parse failure")).2.lowFocusFired = false ∧
      (analyzeFrame initTracker 0 (Except.error "parse failure")).1.focusHistory = [] ∧
      (analyzeFrame initTracker 0 (Except.ok 0)).1.lowFocusCounter = 1 ∧
      (analyzeFrame initTracker 0 (Except.ok 0)).2.lowFocusFired = true ∧
      (analyzeFrame initTracker 0 (Except.ok 0)).1.focusHistory = [(0, 0)] := by
  decide

/-- C7 (amended): on a classification failure the sampler reports the failure
upward via the error callback, marks the error status and substitutes 0 for the
*displayed* focus score only, and the session continues; the failed sample is
not appended to the focus history and the streak-counting logic does not
process it — counter and teacher-alert flag are unchanged and no notification
of either kind fires. -/
theorem classification_failure_behavior (st : TrackerState) (ts : Nat) (e : String) :
    (analyzeFrame st ts (Except.error e)).2.errorReported = true ∧
      (analyzeFrame st ts (Except.error e)).1.focusScore = 0 ∧
      (analyzeFrame st ts (Except.error e)).1.status = TrackerStatus.error ∧
      (analyzeFrame st ts (Except.error e)).1.lowFocusCounter = st.lowFocusCounter ∧
      (analyzeFrame st ts (Except.error e)).1.teacherAlertSent = st.teacherAlertSent ∧
      (analyzeFrame st ts (Except.error e)).1.focusHistory = st.focusHistory ∧
      (analyzeFrame st ts (Except.error e)).2.lowFocusFired = false ∧
      (analyzeFrame st ts (Except.error e)).2.teacherAlertFired = false := by
  simp [analyzeFrame]

/-! ## Theorems for the claim on finalization atomicity -/

/-- C8: finalization is atomic.  Either every generation step succeeds and the
orchestrator transitions to `SUMMARY` with the fully populated session, or the
stored session data is left exactly as it was and the state returns to `SETUP`
(the idle screen) — no partial notes-only session is ever produced.  In
particular, whenever summary generation fails (even after notes generation
succeeded), the whole finalization fails. -/
theorem finalization_atomicity (g : GenOracles) (sd : Session) (ref : SessionRefState)
    (now : Nat) :
    ((endSession g sd ref now).1 = AppState.SUMMARY ∨
        endSession g sd ref now = (AppState.SETUP, sd)) ∧
      (∀ e : String, (∀ t s, g.generateFinalSummary t s = Except.error e) →
        endSession g sd ref now = (AppState.SETUP, sd)) := by
  constructor
  · cases h : finalizePipeline g sd ref now with
    | ok s =>
      left
      simp [endSession, h]
    | error e =>
      right
      simp [endSession, h]
  · intro e hsum
    have hno : ∀ s, finalizePipeline g sd ref now ≠ Except.ok s := by
      intro s hs
      simp only [finalizePipeline] at hs
      split at hs
      · exact Except.noConfusion hs
      · split at hs
        · exact Except.noConfusion hs
        · rw [hsum] at hs
          simp at hs
    cases h : finalizePipeline g sd ref now with
    | ok s => exact absurd h (hno s)
    | error e' => simp [endSession, h]

/-- Witness for C8 at a concrete Quick Record session whose summary generation
fails after notes generation succeeded: the state returns to `SETUP` and the
session data is unchanged. -/
theorem finalization_atomicity_witness :
    endSession gSummaryFails sdQuick refQuick 10 = (AppState.SETUP, sdQuick) :=
  (finalization_atomicity gSummaryFails sdQuick refQuick 10).2 "summary failure"
    (fun _ _ => rfl)

/-! ## Theorems for the claims on the class library -/

/-- C9: saving a finalized session merges it into an existing class exactly
when some registered class's name matches the session's class name
case-insensitively; the first such class receives the session (rewritten to
the class's stored name) and no class is created or renamed, while with no
match a new class named after the session is appended holding the session. -/
theorem save_session_merge_on_name (classes : List RegisteredClass) (s : Session)
    (newId : String) (hname : s.className ≠ "") :
    ((∀ c ∈ classes, jsToLower c.name ≠ jsToLower s.className) →
        handleSaveSession classes s newId
          = some (classes ++
              [{ id := newId
                 name := s.className
                 sessions := [{ s with className := s.className }] }])) ∧
      (∀ target, classes.find? (fun c => jsToLower c.name == jsToLower s.className)
          = some target →
        ∃ res, handleSaveSession classes s newId = some res ∧
          res.map RegisteredClass.name = classes.map RegisteredClass.name ∧
          res.length = classes.length ∧
          { target with
              sessions := target.sessions ++ [{ s with className := target.name }] } ∈ res) := by
  constructor
  · intro h
    have hfind : classes.find? (fun c => jsToLower c.name == jsToLower s.className) = none :=
      List.find?_eq_none.2 fun c hc => by simpa using h c hc
    simp only [handleSaveSession, if_neg hname, hfind]
  · intro target htarget
    have htmem : target ∈ classes := List.mem_of_find?_eq_some htarget
    refine ⟨classes.map fun cls =>
        if cls.id = target.id then
          { cls with sessions := cls.sessions ++ [{ s with className := cls.name }] }
        else cls,
      by simp only [handleSaveSession, if_neg hname, htarget], ?_, List.length_map _ _, ?_⟩
    · rw [List.map_map]
      apply List.map_congr_left
      intro cls _
      by_cases hid : cls.id = target.id <;> simp [hid]
    · have hmem := List.mem_map_of_mem (fun cls =>
        if cls.id = target.id then
          { cls with sessions := cls.sessions ++ [{ s with className := cls.name }] }
        else cls) htmem
      simpa using hmem

/-- Witness for C9 at a concrete library: saving a "History" session into a
library holding only "Math" creates a new "History" class holding it. -/
theorem save_session_merge_on_name_witness :
    handleSaveSession [mathClass] historySession "9"
      = some ([mathClass] ++
          [{ id := "9"
             name := historySession.className
             sessions := [{ historySession with className := historySession.className }] }]) :=
  (save_session_merge_on_name [mathClass] historySession "9" (by decide)).1 (by decide)

/-- C10: every class-library operation preserves the invariant that each stored
session's `className` equals the name of the class holding it — in particular a
session saved into a class matched only case-insensitively is rewritten to the
class's canonical stored name. -/
theorem class_library_invariant (classes : List RegisteredClass) (h : ClassInv classes) :
    (∀ n newId, ClassInv (handleAddClass classes n newId)) ∧
      (∀ id, ClassInv (handleDeleteClass classes id)) ∧
      (∀ s newId res, handleSaveSession classes s newId = some res → ClassInv res) := by
  refine ⟨?_, ?_, ?_⟩
  · intro n newId
    unfold handleAddClass
    split
    · exact h
    · intro c hc s hs
      rcases List.mem_append.1 hc with hmem | hmem
      · exact h c hmem s hs
      · have hcc : c = { id := newId, name := jsTrim n, sessions := [] } := by
          simpa using hmem

        rw [hcc] at hs
        exact absurd hs (List.not_mem_nil s)
  · intro id c hc s hs
    exact h c (List.mem_of_mem_filter hc) s hs
  · intro s newId res hres
    unfold handleSaveSession at hres
    split at hres
    · exact absurd hres (by simp)
    · split at hres
      · rename_i target htarget
        have hres' : res = classes.map fun cls =>
            if cls.id = target.id then
              { cls with sessions := cls.sessions ++ [{ s with className := cls.name }] }
            else cls := by
          exact (Option.some.inj hres).symm
        subst hres'
        intro c hc s' hs'
        rcases List.mem_map.1 hc with ⟨c₀, hc₀, hfc⟩
        by_cases hid : c₀.id = target.id
        · rw [if_pos hid] at hfc
          rw [← hfc] at hs' ⊢
          rcases List.mem_append.1 hs' with hin | hin
          · exact h c₀ hc₀ s' hin
          · have : s' = { s with className := c₀.name } := by simpa using hin
            rw [this]
        · rw [if_neg hid] at hfc
          rw [← hfc] at hs' ⊢
          exact h c₀ hc₀ s' hs'
      · have hres' : res = classes ++
            [{ id := newId
               name := s.className
               sessions := [{ s with className := s.className }] }] :=
          (Option.some.inj hres).symm
        subst hres'
        intro c hc s' hs'
        rcases List.mem_append.1 hc with hmem | hmem
        · exact h c hmem s' hs'
        · have hcc : c =
              { id := newId
                name := s.className
                sessions := [{ s with className := s.className }] } := by
            simpa using hmem
          rw [hcc] at hs'
          have : s' = { s with className := s.className } := by simpa using hs'
          rw [hcc, this]

/-- Witness for C10: the invariant is preserved when adding a class to the
empty library. -/
theorem class_library_invariant_witness :
    ClassInv (handleAddClass [] "Math" "1") :=
  (class_library_invariant [] (fun c hc => absurd hc (List.not_mem_nil c))).1 "Math" "1"

end SharpLearn
